import Mathlib

/-!
Verification of the `cs` CloudStack command-line client (`cs/__init__.py`).

We give a shallow embedding of the CLI driver `main`, its helpers
(`parse_option`, the kwargs multimap, `_format_json`) and the async job
polling loop, as executable Lean functions over an explicit world
(configuration lookup, the API call result, the sequence of poll query
results and an interrupt schedule), and prove the specified properties.
-/

namespace Cs

/-- JSON-like values, as decoded by `json.loads` / returned by the API. -/
inductive JVal where
  | null
  | bool (b : Bool)
  | num (n : Int)
  | str (s : String)
  | arr (elems : List JVal)
  | obj (fields : List (String × JVal))

/-- Python substring containment (`needle in hay`) on character lists:
a Boolean prefix check ... -/
def listPrefixB : List Char → List Char → Bool
  | [], _ => true
  | _ :: _, [] => false
  | a :: as, b :: bs => a = b && listPrefixB as bs

/-- Boolean infix check scanning every suffix. -/
def listInfixB (needle : List Char) : List Char → Bool
  | [] => needle.isEmpty
  | b :: bs => listPrefixB needle (b :: bs) || listInfixB needle bs

/-- Python `needle in hay` on strings (substring containment). -/
def strIn (needle hay : String) : Bool := listInfixB needle.data hay.data

/-- The characters stripped from argument values: `value.strip(" \"'")`. -/
def stripSet : List Char := [' ', '"', '\'']

/-- Python `s.strip(" \"'")`: drop those characters from both ends. -/
def pyStrip (s : String) : String :=
  ⟨(((s.data.dropWhile (· ∈ stripSet)).reverse.dropWhile (· ∈ stripSet)).reverse)⟩

/-- Python `x.split('=', 1)` on a character list: split at the first `'='`. -/
def splitEq : List Char → List Char × List Char
  | [] => ([], [])
  | c :: cs => if c = '=' then ([], cs) else
      let p := splitEq cs
      (c :: p.1, p.2)

/-- The `parse_option` helper of `_parser`: raise `ValueError` (here: `none`) when
the argument has no `'='`, else split at the first `'='`. -/
def parse_option (x : String) : Option (String × String) :=
  if '=' ∈ x.data then
    let p := splitEq x.data
    some (⟨p.1⟩, ⟨p.2⟩)
  else none

/-- Parse every positional argument; the first failure aborts
(argparse applies `parse_option` to each `OPTION=VALUE` argument). -/
def parseAll : List String → Option (List (String × String))
  | [] => some []
  | a :: as =>
    match parse_option a with
    | none => none
    | some kv => (parseAll as).map (kv :: ·)

/-! ### `json.dumps(data, indent=2, sort_keys=True)`

Modelled from the spec: the serializer itself lives in the Python standard
library (`json.dumps`), not in this repository; `_format_json` calls it with
`indent=2, sort_keys=True`. We model its documented behaviour: 2-space
indentation per nesting level, `", "`/`": "` item separators collapsing to
`",\n"` under indentation, keys rendered in sorted order (a stable sort by
key), strings escaped to ASCII. -/

/-- Hexadecimal digit for `\uXXXX` escapes. -/
def hexDigit (n : Nat) : Char :=
  if n < 10 then Char.ofNat (48 + n) else Char.ofNat (87 + n)

/-- Four lowercase hex digits of `n % 65536`. -/
def hex4 (n : Nat) : String :=
  ⟨[hexDigit (n / 4096 % 16), hexDigit (n / 256 % 16),
    hexDigit (n / 16 % 16), hexDigit (n % 16)]⟩

/-- Unicode `\uXXXX` escape for a character, with a surrogate pair above U+FFFF. -/
def escU (c : Char) : String :=
  let n := c.toNat
  if n < 65536 then "\\u" ++ hex4 n
  else
    let m := n - 65536
    "\\u" ++ hex4 (55296 + m / 1024) ++ "\\u" ++ hex4 (56320 + m % 1024)

/-- Escape one character the way `json.dumps` (with `ensure_ascii`) does. -/
def encChar (c : Char) : String :=
  if c = '"' then "\\\""
  else if c = '\\' then "\\\\"
  else if c = '\n' then "\\n"
  else if c = '\r' then "\\r"
  else if c = '\t' then "\\t"
  else if c = '\x08' then "\\b"
  else if c = '\x0c' then "\\f"
  else if 32 ≤ c.toNat && c.toNat ≤ 126 then ⟨[c]⟩
  else escU c

/-- JSON string literal for `s`. -/
def encodeStr (s : String) : String :=
  "\"" ++ String.join (s.data.map encChar) ++ "\""

/-- Indentation of `n` spaces. -/
def jIndent (n : Nat) : String := ⟨List.replicate n ' '⟩

/-- Join rendered items with `",\n"`. -/
def joinItems : List String → String
  | [] => ""
  | [s] => s
  | s :: t :: ts => s ++ ",\n" ++ joinItems (t :: ts)

/-- Rendered object entries in sorted key order (a stable sort by key,
as `sort_keys=True` produces). -/
def sortFields (fs : List (String × String)) : List (String × String) :=
  List.insertionSort (fun a b => a.1 ≤ b.1) fs

mutual

/-- Value of `json.dumps(v, indent=2, sort_keys=True)` rendered at nesting level
`lvl` (the indentation of the value's closing bracket). -/
def dumpsVal (lvl : Nat) : JVal → String
  | .null => "null"
  | .bool b => if b then "true" else "false"
  | .num n => toString n
  | .str s => encodeStr s
  | .arr [] => "[]"
  | .arr (e :: es) =>
      "[\n" ++
      joinItems ((dumpsList (lvl + 2) (e :: es)).map (jIndent (lvl + 2) ++ ·)) ++
      "\n" ++ jIndent lvl ++ "]"
  | .obj [] => "\x7b\x7d"
  | .obj (f :: fs) =>
      "\x7b\n" ++
      joinItems ((sortFields (dumpsFields (lvl + 2) (f :: fs))).map
        (fun kv => jIndent (lvl + 2) ++ encodeStr kv.1 ++ ": " ++ kv.2)) ++
      "\n" ++ jIndent lvl ++ "\x7d"

/-- Render each array element. -/
def dumpsList (lvl : Nat) : List JVal → List String
  | [] => []
  | e :: es => dumpsVal lvl e :: dumpsList lvl es

/-- Render each object entry's value, keeping its key. -/
def dumpsFields (lvl : Nat) : List (String × JVal) → List (String × String)
  | [] => []
  | kv :: fs => (kv.1, dumpsVal lvl kv.2) :: dumpsFields lvl fs

end

/-- The top-level `json.dumps(data, indent=2, sort_keys=True)`. -/
def dumps (data : JVal) : String := dumpsVal 0 data

/-- One step of `kwargs[key].add(value.strip(" \"'"))` on a
`defaultdict(set)` modelled as a total function into finite sets. -/
def addKw (m : String → Finset String) (key val : String) :
    String → Finset String :=
  fun k => if k = key then insert (pyStrip val) (m k) else m k

/-- The kwargs multimap built by the loop over `options.arguments`. -/
def buildKwargs (args : List (String × String)) : String → Finset String :=
  args.foldl (fun m kv => addKw m kv.1 kv.2) (fun _ => ∅)

/-! ### The async poll loop of `main` (lines 188-200) -/

/-- Python dictionary lookup `d[k]` (first matching key); `none` models a
`KeyError` (or indexing a non-dict). -/
def JVal.get (j : JVal) (k : String) : Option JVal :=
  match j with
  | .obj fields => (fields.find? (fun kv => kv.1 = k)).map Prod.snd
  | _ => none

/-- Python `v == 0` for a JSON value (`0 == 0` and `False == 0` hold;
every other JSON value compares unequal to `0`). -/
def pyIsZero : JVal → Bool
  | .num n => n = 0
  | .bool b => b = false
  | _ => false

/-- Python `k in response`: key membership for a dict, element equality
for a list, substring for a string; `none` models a `TypeError`. -/
def pyIn (k : String) : JVal → Option Bool
  | .obj fields => some (fields.any (fun kv => kv.1 = k))
  | .arr es => some (es.any (fun e => match e with
      | .str s => s = k
      | _ => false))
  | .str s => some (strIn k s)
  | _ => none

/-- Where, within one loop iteration's `try` block, an external
`KeyboardInterrupt` is delivered: while the `queryAsyncJobResult` network
call is in flight, or during the `time.sleep(3)` pause. -/
inductive IPoint where
  | duringQuery
  | duringSleep
deriving DecidableEq

/-- The environment seen by the poll loop: the payload the `i`-th
`queryAsyncJobResult` call would return, and whether (and where) an
interrupt is delivered during iteration `i`. -/
structure PollWorld where
  query : Nat → JVal
  interrupt : Nat → Option IPoint

/-- State when the poll loop has stopped: the final `response`, the `ok`
flag, whether it stopped via `KeyboardInterrupt`, how many
`queryAsyncJobResult` calls completed, and the durations of the completed
`time.sleep(3)` pauses, in order. -/
structure PollResult where
  response : JVal
  ok : Bool
  interrupted : Bool
  queries : Nat
  sleeps : List Nat

/-- How the poll loop ended: normally, or by an uncaught `KeyError`
(a poll payload missing `jobstatus`/`jobresultcode`). -/
inductive PollOut where
  | finished (r : PollResult)
  | keyError (queries : Nat) (sleeps : List Nat)

/-- The `while True` loop of `main`: query the job, stop on a nonzero
`jobstatus` (clearing `ok` when `jobresultcode` is nonzero), otherwise
sleep 3 seconds and retry; a `KeyboardInterrupt` anywhere in the `try`
block breaks out, leaving `response` and `ok` unchanged. `fuel` bounds
the modelled iterations: `none` means the loop was still running. -/
def pollLoop (w : PollWorld) : Nat → Nat → JVal → Bool → Nat → List Nat →
    Option PollOut
  | 0, _, _, _, _, _ => none
  | fuel + 1, i, response, ok, q, slp =>
    if w.interrupt i = some .duringQuery then
      some (.finished ⟨response, ok, true, q, slp⟩)
    else
      let res := w.query i
      match res.get "jobstatus" with
      | none => some (.keyError (q + 1) slp)
      | some js =>
        if !pyIsZero js then
          match res.get "jobresultcode" with
          | none => some (.keyError (q + 1) slp)
          | some rc =>
            some (.finished ⟨res, ok && pyIsZero rc, false, q + 1, slp⟩)
        else
          if w.interrupt i = some .duringSleep then
            some (.finished ⟨response, ok, true, q + 1, slp⟩)
          else
            pollLoop w fuel (i + 1) response ok (q + 1) (slp ++ [3])

/-! ### The CLI driver `main` (lines 149-204) -/

/-- Parsed command-line options (`_parser`, lines 72-102). -/
structure Options where
  region : String
  theme : String
  post : Bool
  async : Bool
  quiet : Bool
  command : String
  rawArgs : List String

/-- The result of `getattr(cs, command)(**kwargs)`: either a decoded
success payload, or a `CloudStackException` carrying the HTTP status
code, the raw body text, and `json.loads(text)` when the body is
decodable JSON (`none` models the `ValueError` branch). -/
inductive CallResult where
  | success (payload : JVal)
  | failure (status_code : Nat) (text : String) (decoded : Option JVal)

/-- The external world `main` runs against: configuration lookup by
region name (`none` models `NoSectionError`), the API call's result, the
poll environment, and the terminal/highlighting facts used by
`_format_json` (`highlight theme text` stands for
`pygments.highlight` with the theme's style). -/
structure World where
  readConfig : String → Option (List (String × String))
  call : CallResult
  poll : PollWorld
  pygmentsAvailable : Bool
  isatty : Bool
  highlight : String → String → String

/-- The formatter `_format_json(data, theme)` (lines 43-52): dump as sorted, indented
JSON; highlight only when pygments is present and stdout is a tty. -/
def format_json (w : World) (data : JVal) (theme : String) : String :=
  let output := dumps data
  if w.pygmentsAvailable && w.isatty then w.highlight theme output
  else output

/-- Value of `config.pop('theme', 'default')` (line 163). -/
def configTheme (cfg : List (String × String)) : String :=
  (((cfg.find? (fun kv => kv.1 = "theme")).map Prod.snd)).getD "default"

/-- How a run of `main` ended: argparse rejected an argument
(`parse_option` raised `ValueError`), the region was missing from the
config (`SystemExit` naming the region), the error body was undecodable
(`sys.exit(1)` after writing the raw body to stderr), a normal
`sys.exit(not ok)` after writing the formatted result to stdout, or an
uncaught exception (`KeyError`/`TypeError`). -/
inductive Outcome where
  | argError
  | configError (region : String)
  | errorExit (body : String)
  | output (stdout : String) (exitCode : Nat)
  | crash

/-- The process exit status each outcome produces (argparse exits with
2 on a bad argument; an uncaught exception exits with 1). -/
def Outcome.exitCode : Outcome → Nat
  | .argError => 2
  | .configError _ => 1
  | .errorExit _ => 1
  | .output _ c => c
  | .crash => 1

/-- Observable side effects of a run: whether configuration resolution
succeeded, whether the client was constructed and the API called,
whether the polling branch was entered, how many poll queries ran and
which sleeps completed, the theme handed to `_format_json` (if it was
reached), and the lines written to stderr. -/
structure Trace where
  configResolved : Bool
  clientConstructed : Bool
  apiCalled : Bool
  enteredPoll : Bool
  pollQueries : Nat
  pollSleeps : List Nat
  themeUsed : Option String
  stderr : List String

/-- The tail of `main`: write the formatted response and a newline to
stdout, then `sys.exit(not ok)`. -/
def finishOutput (w : World) (theme : String) (response : JVal) (ok : Bool)
    (stderrAcc : List String) (entered : Bool) (q : Nat) (slp : List Nat) :
    Option (Outcome × Trace) :=
  some (.output (format_json w response theme ++ "\n") (if ok then 0 else 1),
        ⟨true, true, true, entered, q, slp, some theme, stderrAcc⟩)

/-- Continuation of `main` from line 184 on, once `response` holds either the success
payload or the decoded error body: the async-detection test, the poll
loop, and the final formatting. `errLines` are the stderr lines already
written by the error handler. -/
def afterResponse (w : World) (o : Options) (theme : String)
    (response : JVal) (errLines : List String) (fuel : Nat) :
    Option (Outcome × Trace) :=
  if strIn "Async" o.command then
    finishOutput w theme response true errLines false 0 []
  else
    match pyIn "jobid" response with
    | none => some (.crash, ⟨true, true, true, false, 0, [], none, errLines⟩)
    | some hasJid =>
      if hasJid && !o.async then
        let pre := errLines ++
          (if o.quiet then [] else ["Polling result... ^C to abort\n"])
        match pollLoop w.poll fuel 0 response true 0 [] with
        | none => none
        | some (.keyError q slp) =>
            some (.crash, ⟨true, true, true, true, q, slp, none, pre⟩)
        | some (.finished r) =>
            finishOutput w theme r.response r.ok
              (pre ++ (if r.interrupted && !o.quiet
                       then ["Result not ready yet.\n"] else []))
              true r.queries r.sleeps
      else
        finishOutput w theme response true errLines false 0 []

/-- The driver `main` (lines 149-204): parse the `OPTION=VALUE` arguments, build the
kwargs multimap, resolve the region's configuration, pop the theme, call
the API (the error handler writes a status line unless quiet, and either
aborts on an undecodable body or threads the decoded error body into the
normal path), then detect and poll async jobs and print the result. -/
def main (w : World) (o : Options) (fuel : Nat) : Option (Outcome × Trace) :=
  match parseAll o.rawArgs with
  | none => some (.argError, ⟨false, false, false, false, 0, [], none, []⟩)
  | some args =>
    let _kwargs := buildKwargs args
    match w.readConfig o.region with
    | none =>
        some (.configError o.region,
              ⟨false, false, false, false, 0, [], none, []⟩)
    | some config =>
      let theme := configTheme config
      match w.call with
      | .success p => afterResponse w o theme p [] fuel
      | .failure st text d =>
        let line := if o.quiet then [] else
          ["Cloudstack error: HTTP response " ++ toString st ++ "\n"]
        match d with
        | none =>
            some (.errorExit text,
                  ⟨true, true, true, false, 0, [], none,
                   line ++ [text, "\n"]⟩)
        | some p => afterResponse w o theme p line fuel

/-! ### Helpers and concrete fixtures used in the statements -/

/-- The payload `main` threads into the async-detection logic: the success
payload, or the decoded JSON error body if there is one. -/
def responseOf : CallResult → Option JVal
  | .success p => some p
  | .failure _ _ d => d

/-- Replace the API call's result, keeping the rest of the world. -/
def setCall (w : World) (c : CallResult) : World :=
  ⟨w.readConfig, c, w.poll, w.pygmentsAvailable, w.isatty, w.highlight⟩

/-- Replace the `--theme` flag's value, keeping the other options. -/
def setTheme (o : Options) (t : String) : Options :=
  ⟨o.region, t, o.post, o.async, o.quiet, o.command, o.rawArgs⟩

/-- The stderr status line of the error handler (lines 173-175),
empty under `--quiet`. -/
def errLine (st : Nat) (quiet : Bool) : List String :=
  if quiet then [] else ["Cloudstack error: HTTP response " ++ toString st ++ "\n"]

/-- Prepend already-written stderr lines to a run's trace. -/
def prependStderr (ls : List String) : Outcome × Trace → Outcome × Trace :=
  fun p =>
    (p.1, ⟨p.2.configResolved, p.2.clientConstructed, p.2.apiCalled,
           p.2.enteredPoll, p.2.pollQueries, p.2.pollSleeps, p.2.themeUsed,
           ls ++ p.2.stderr⟩)

/-- A still-pending job submission payload (`jobstatus = 0`). -/
def pendingPayload : JVal :=
  .obj [("jobid", .str "42"), ("jobstatus", .num 0)]

/-- A terminal job result payload with `jobstatus = 1`, `jobresultcode = 0`. -/
def terminalOk : JVal :=
  .obj [("jobid", .str "42"), ("jobstatus", .num 1),
        ("jobresultcode", .num 0), ("jobresult", .str "done")]

/-- A terminal job result payload with a nonzero `jobresultcode`. -/
def terminalFail : JVal :=
  .obj [("jobid", .str "42"), ("jobstatus", .num 2),
        ("jobresultcode", .num 530), ("jobresult", .str "error")]

/-- Poll environment for the two-poll scenario: the first query returns a
pending status, every later one the successful terminal payload; no
interrupt is ever delivered. -/
def pollW2 : PollWorld :=
  ⟨fun i => if i = 0 then pendingPayload else terminalOk, fun _ => none⟩

/-- Poll environment whose queries all stay pending. -/
def pollPend : PollWorld := ⟨fun _ => pendingPayload, fun _ => none⟩

/-- Poll environment where every query stays pending and an interrupt is
delivered while the first query is in flight. -/
def pollIntrQuery : PollWorld :=
  ⟨fun _ => pendingPayload,
   fun i => if i = 0 then some .duringQuery else none⟩

/-- Poll environment where every query stays pending and an interrupt is
delivered during the first sleep. -/
def pollIntrSleep : PollWorld :=
  ⟨fun _ => pendingPayload,
   fun i => if i = 0 then some .duringSleep else none⟩

/-- Poll environment that immediately returns a failed terminal payload. -/
def pollFail : PollWorld := ⟨fun _ => terminalFail, fun _ => none⟩

/-- Sample configuration store: only the region `"cloudstack"` exists. -/
def sampleConfig : String → Option (List (String × String))
  | r => if r = "cloudstack" then
      some [("endpoint", "http://localhost:8080/client/api"),
            ("key", "k"), ("secret", "s"), ("theme", "monokai")]
    else none

/-- Sample world: known region, a successful asynchronous job submission,
the two-poll environment, no terminal highlighting. -/
def sampleWorld : World :=
  ⟨sampleConfig, .success pendingPayload, pollW2, false, false, fun _ s => s⟩

/-- Sample options: the default region, an asynchronous command, one
well-formed argument. -/
def sampleOpts : Options :=
  ⟨"cloudstack", "default", false, false, false,
   "deployVirtualMachine", ["name=vm1"]⟩

/-- Sample world whose first poll already reports a failed terminal job. -/
def failWorld : World :=
  ⟨sampleConfig, .success pendingPayload, pollFail, false, false, fun _ s => s⟩

/-- Sample world whose poll wait is interrupted during the first sleep. -/
def intrWorld : World :=
  ⟨sampleConfig, .success pendingPayload, pollIntrSleep, false, false,
   fun _ s => s⟩

/-! ## Theorems -/

theorem foldl_addKw (args : List (String × String)) (m : String → Finset String)
    (k : String) :
    args.foldl (fun m kv => addKw m kv.1 kv.2) m k =
      m k ∪ ((args.filter (fun kv => kv.1 = k)).map
              (fun kv => pyStrip kv.2)).toFinset := by
  induction args generalizing m with
  | nil => simp
  | cons kv rest ih =>
    simp only [List.foldl_cons, ih, List.filter_cons]
    by_cases h : kv.1 = k
    · simp [addKw, h, Finset.insert_union]
    · have h' : ¬(k = kv.1) := fun hk => h hk.symm
      simp [addKw, h, h']

/-- C6: the parameter multimap built from the parsed `OPTION=VALUE`
arguments maps each key to the finite set of distinct trimmed values given
for it: duplicate keys accumulate all their distinct values, and exact
duplicate key+value pairs collapse to a single element. -/
theorem buildKwargs_distinct_values (args : List (String × String)) (k : String) :
    buildKwargs args k =
      ((args.filter (fun kv => kv.1 = k)).map (fun kv => pyStrip kv.2)).toFinset ∧
    ∀ v : String, v ∈ buildKwargs args k ↔
      ∃ raw : String, (k, raw) ∈ args ∧ pyStrip raw = v := by
  have key : buildKwargs args k =
      ((args.filter (fun kv => kv.1 = k)).map (fun kv => pyStrip kv.2)).toFinset := by
    simpa using foldl_addKw args (fun _ => ∅) k
  refine ⟨key, fun v => ?_⟩
  rw [key]
  simp only [List.mem_toFinset, List.mem_map, List.mem_filter]
  constructor
  · rintro ⟨⟨k', raw⟩, ⟨hmem, hk⟩, hv⟩
    exact ⟨raw, by simpa [show k' = k from by simpa using hk] using hmem, hv⟩
  · rintro ⟨raw, hmem, hv⟩
    exact ⟨(k, raw), ⟨hmem, by simp⟩, hv⟩

theorem parseAll_eq_none_iff (as : List String) :
    parseAll as = none ↔ ∃ a ∈ as, parse_option a = none := by
  induction as with
  | nil => simp [parseAll]
  | cons a rest ih =>
    cases h : parse_option a with
    | none => simp [parseAll, h]
    | some kv => simp [parseAll, h, ih]

/-- C7: a positional argument with no `'='` makes `parse_option` raise a
`ValueError`, and a run whose argument list contains such an argument ends
in the argparse error before configuration resolution, client
construction, or any API call or polling. -/
theorem parse_option_rejects_malformed :
    (∀ x : String, parse_option x = none ↔ '=' ∉ x.data) ∧
    (∀ (w : World) (o : Options) (fuel : Nat),
      (∃ a ∈ o.rawArgs, parse_option a = none) →
      main w o fuel =
        some (.argError, ⟨false, false, false, false, 0, [], none, []⟩)) := by
  constructor
  · intro x
    by_cases h : '=' ∈ x.data <;> simp [parse_option, h]
  · intro w o fuel h
    have hn : parseAll o.rawArgs = none := (parseAll_eq_none_iff _).mpr h
    simp [main, hn]

/-- Witness for C7 at the argument `"foo"`. -/
theorem parse_option_rejects_malformed_witness :
    parse_option "foo" = none ∧
    main sampleWorld
      ⟨"cloudstack", "default", false, false, false,
       "listVirtualMachines", ["foo"]⟩ 5 =
      some (.argError, ⟨false, false, false, false, 0, [], none, []⟩) :=
  ⟨(parse_option_rejects_malformed.1 "foo").mpr (by decide),
   parse_option_rejects_malformed.2 _ _ 5
     ⟨"foo", by simp, (parse_option_rejects_malformed.1 "foo").mpr (by decide)⟩⟩

/-- C8: when the requested region has no section in the configuration,
`main` stops with the `SystemExit` naming that region, with the client
never constructed and no API call or polling attempted. -/
theorem main_missing_region (w : World) (o : Options) (fuel : Nat)
    (args : List (String × String)) (hp : parseAll o.rawArgs = some args)
    (hc : w.readConfig o.region = none) :
    main w o fuel =
      some (.configError o.region,
            ⟨false, false, false, false, 0, [], none, []⟩) := by
  simp [main, hp, hc]

/-- Witness for C8 at the unknown region `"exoscale"`. -/
theorem main_missing_region_witness :
    main sampleWorld
      ⟨"exoscale", "default", false, false, false,
       "listVirtualMachines", []⟩ 5 =
      some (.configError "exoscale",
            ⟨false, false, false, false, 0, [], none, []⟩) :=
  main_missing_region _ _ 5 [] rfl (by decide)

theorem pollLoop_pending_none (w : PollWorld)
    (hq : ∀ i, (w.query i).get "jobstatus" = some (.num 0))
    (hi : ∀ i, w.interrupt i = none) :
    ∀ (fuel i : Nat) (r : JVal) (ok : Bool) (q : Nat) (slp : List Nat),
      pollLoop w fuel i r ok q slp = none := by
  intro fuel
  induction fuel with
  | zero => intro i r ok q slp; rfl
  | succ n ih =>
    intro i r ok q slp
    simp [pollLoop, hi, hq, pyIsZero, ih]

theorem pollLoop_finished_inv (w : PollWorld) :
    ∀ (fuel i : Nat) (r : JVal) (ok : Bool) (q : Nat) (slp : List Nat)
      (pr : PollResult),
      pollLoop w fuel i r ok q slp = some (.finished pr) →
      (pr.interrupted = true ∧ pr.response = r ∧ pr.ok = ok) ∨
      (pr.interrupted = false ∧
        ∃ js rc, pr.response.get "jobstatus" = some js ∧ pyIsZero js = false ∧
          pr.response.get "jobresultcode" = some rc ∧
          pr.ok = (ok && pyIsZero rc)) := by
  intro fuel
  induction fuel with
  | zero => intro i r ok q slp pr h; exact absurd h (by simp [pollLoop])
  | succ n ih =>
    intro i r ok q slp pr h
    rw [pollLoop] at h
    by_cases h1 : w.interrupt i = some .duringQuery
    · rw [if_pos h1] at h
      simp only [Option.some.injEq, PollOut.finished.injEq] at h
      subst h
      exact Or.inl ⟨rfl, rfl, rfl⟩
    · rw [if_neg h1] at h
      cases hjs : (w.query i).get "jobstatus" with
      | none => simp [hjs] at h
      | some js =>
        cases hz : pyIsZero js with
        | false =>
          simp only [hjs, hz, Bool.not_false, if_true] at h
          cases hrc : (w.query i).get "jobresultcode" with
          | none => simp [hrc] at h
          | some rc =>
            simp only [hrc, Option.some.injEq, PollOut.finished.injEq] at h
            subst h
            exact Or.inr ⟨rfl, js, rc, hjs, hz, hrc, rfl⟩
        | true =>
          simp only [hjs, hz, Bool.not_true, Bool.false_eq_true, if_false] at h
          by_cases h3 : w.interrupt i = some .duringSleep
          · rw [if_pos h3] at h
            simp only [Option.some.injEq, PollOut.finished.injEq] at h
            subst h
            exact Or.inl ⟨rfl, rfl, rfl⟩
          · rw [if_neg h3] at h
            exact ih _ _ _ _ _ _ h

theorem pollLoop_terminal_cases (w : PollWorld) (fuel i : Nat) (r : JVal)
    (ok : Bool) (q : Nat) (slp : List Nat) (pr : PollResult)
    (h : pollLoop w fuel i r ok q slp = some (.finished pr)) :
    pr.interrupted = true ∨
      ∃ js, pr.response.get "jobstatus" = some js ∧ pyIsZero js = false := by
  rcases pollLoop_finished_inv w fuel i r ok q slp pr h with hc | ⟨_, js, _, hjs, hz, _⟩
  · exact Or.inl hc.1
  · exact Or.inr ⟨js, hjs, hz⟩

theorem pollLoop_interrupted_state (w : PollWorld) (fuel i : Nat) (r : JVal)
    (ok : Bool) (q : Nat) (slp : List Nat) (pr : PollResult)
    (h : pollLoop w fuel i r ok q slp = some (.finished pr))
    (hint : pr.interrupted = true) : pr.response = r ∧ pr.ok = ok := by
  rcases pollLoop_finished_inv w fuel i r ok q slp pr h with hc | hc
  · exact hc.2
  · rw [hc.1] at hint; cases hint

theorem pollLoop_terminal_ok (w : PollWorld) (fuel i : Nat) (r : JVal)
    (ok : Bool) (q : Nat) (slp : List Nat) (pr : PollResult)
    (h : pollLoop w fuel i r ok q slp = some (.finished pr))
    (hni : pr.interrupted = false) :
    ∃ rc, pr.response.get "jobresultcode" = some rc ∧
      pr.ok = (ok && pyIsZero rc) := by
  rcases pollLoop_finished_inv w fuel i r ok q slp pr h with hc | ⟨_, _, rc, _, _, hrc, hok⟩
  · rw [hc.1] at hni; cases hni
  · exact ⟨rc, hrc, hok⟩

/-- C2: each iteration of the poll loop issues one job-status query; a
zero `jobstatus` means one fixed 3-unit sleep and a retry, a nonzero one
stops the loop with that payload as the result. In the concrete
pending-then-terminal scenario exactly one 3-unit retry wait occurs, two
queries run, and the terminal payload is returned with overall success.
The loop has no retry bound of its own: with all queries pending and no
interrupt it runs forever (no fuel suffices), and any normal termination
is through an interrupt or a nonzero `jobstatus`. -/
theorem pollLoop_retry_semantics :
    (pollLoop pollW2 10 0 pendingPayload true 0 [] =
      some (.finished ⟨terminalOk, true, false, 2, [3]⟩)) ∧
    (∀ (w : PollWorld),
      (∀ i, (w.query i).get "jobstatus" = some (.num 0)) →
      (∀ i, w.interrupt i = none) →
      ∀ (fuel i : Nat) (r : JVal) (ok : Bool) (q : Nat) (slp : List Nat),
        pollLoop w fuel i r ok q slp = none) ∧
    (∀ (w : PollWorld) (fuel i : Nat) (r : JVal) (ok : Bool) (q : Nat)
      (slp : List Nat) (pr : PollResult),
      pollLoop w fuel i r ok q slp = some (.finished pr) →
      pr.interrupted = true ∨
        ∃ js, pr.response.get "jobstatus" = some js ∧ pyIsZero js = false) :=
  ⟨rfl, pollLoop_pending_none, pollLoop_terminal_cases⟩

/-- Witness for C2: with every poll pending and no interrupt, fuel 7 does
not end the loop. -/
theorem pollLoop_retry_semantics_witness :
    pollLoop pollPend 7 0 pendingPayload true 0 [] = none :=
  pollLoop_retry_semantics.2.1 pollPend (fun _ => rfl) (fun _ => rfl)
    7 0 pendingPayload true 0 []

theorem afterResponse_entered_iff (w : World) (o : Options) (th : String)
    (r : JVal) (e : List String) (fuel : Nat) (out : Outcome) (tr : Trace)
    (h : afterResponse w o th r e fuel = some (out, tr)) :
    tr.enteredPoll = true ↔
      (strIn "Async" o.command = false ∧ pyIn "jobid" r = some true ∧
       o.async = false) := by
  unfold afterResponse at h
  by_cases hA : strIn "Async" o.command
  · rw [if_pos hA] at h
    simp only [finishOutput, Option.some.injEq, Prod.mk.injEq] at h
    simp [← h.2, hA]
  · rw [if_neg hA] at h
    cases hj : pyIn "jobid" r with
    | none => simp only [hj] at h; simp [← (Prod.mk.injEq .. ▸ (Option.some.injEq .. ▸ h)).2, hj]
    | some b =>
      simp only [hj] at h
      cases hb : b && !o.async with
      | false =>
        simp only [hb, Bool.false_eq_true, if_false] at h
        simp only [finishOutput, Option.some.injEq, Prod.mk.injEq] at h
        rcases Bool.and_eq_false_iff.mp hb with hb' | hb'
        · simp [← h.2, hb']
        · have : o.async = true := by
            cases ha : o.async
            · rw [ha] at hb'; cases hb'
            · rfl
          simp [← h.2, this]
      | true =>
        have hbt : b = true := (Bool.and_eq_true_iff.mp hb).1
        have hat : o.async = false := by
          have := (Bool.and_eq_true_iff.mp hb).2
          cases ha : o.async
          · rfl
          · rw [ha] at this; cases this
        simp only [hb, if_true] at h
        cases hp : pollLoop w.poll fuel 0 r true 0 [] with
        | none => rw [hp] at h; cases h
        | some po =>
          rw [hp] at h
          cases po with
          | keyError q slp =>
            simp only [Option.some.injEq, Prod.mk.injEq] at h
            simp only [← h.2, hj, hat, Option.some.injEq]
            simp only [true_iff]
            exact ⟨Bool.eq_false_iff.mpr hA, hbt, trivial⟩
          | finished pres =>
            simp only [finishOutput, Option.some.injEq, Prod.mk.injEq] at h
            simp only [← h.2, hj, hat, Option.some.injEq]
            simp only [true_iff]
            exact ⟨Bool.eq_false_iff.mpr hA, hbt, trivial⟩

theorem afterResponse_nojid (w : World) (o : Options) (th : String)
    (r : JVal) (e : List String) (fuel : Nat)
    (hj : pyIn "jobid" r = some false) :
    afterResponse w o th r e fuel = finishOutput w th r true e false 0 [] := by
  unfold afterResponse
  by_cases hA : strIn "Async" o.command
  · rw [if_pos hA]
  · rw [if_neg hA]
    simp [hj]

/-- C1: the async poll branch of `main` is entered exactly when the
command name does not contain `"Async"`, the threaded response contains a
`jobid` key, and `--async` was not passed; and a response without `jobid`
goes straight to the formatter with no poll query issued. -/
theorem main_poll_trigger :
    (∀ (w : World) (o : Options) (fuel : Nat)
      (args cfg : List (String × String)) (r : JVal) (out : Outcome)
      (tr : Trace),
      parseAll o.rawArgs = some args →
      w.readConfig o.region = some cfg →
      responseOf w.call = some r →
      main w o fuel = some (out, tr) →
      (tr.enteredPoll = true ↔
        (strIn "Async" o.command = false ∧ pyIn "jobid" r = some true ∧
         o.async = false))) ∧
    (∀ (w : World) (o : Options) (fuel : Nat)
      (args cfg : List (String × String)) (r : JVal),
      parseAll o.rawArgs = some args →
      w.readConfig o.region = some cfg →
      responseOf w.call = some r →
      pyIn "jobid" r = some false →
      ∃ tr : Trace, main w o fuel =
          some (.output (format_json w r (configTheme cfg) ++ "\n") 0, tr) ∧
        tr.enteredPoll = false ∧ tr.pollQueries = 0) := by
  constructor
  · intro w o fuel args cfg r out tr hp hc hr hm
    cases hcall : w.call with
    | success p =>
      have hpr : p = r := by
        rw [hcall] at hr; simpa [responseOf] using hr
      subst hpr
      simp only [main, hp, hc, hcall] at hm
      exact afterResponse_entered_iff _ _ _ _ _ _ _ _ hm
    | failure st text d =>
      rw [hcall] at hr
      simp only [responseOf] at hr
      subst hr
      simp only [main, hp, hc, hcall] at hm
      exact afterResponse_entered_iff _ _ _ _ _ _ _ _ hm
  · intro w o fuel args cfg r hp hc hr hj
    cases hcall : w.call with
    | success p =>
      have hpr : p = r := by
        rw [hcall] at hr; simpa [responseOf] using hr
      subst hpr
      refine ⟨⟨true, true, true, false, 0, [], some (configTheme cfg), []⟩,
        ?_, rfl, rfl⟩
      simp only [main, hp, hc, hcall, afterResponse_nojid _ _ _ _ _ _ hj,
        finishOutput]
      rfl
    | failure st text d =>
      rw [hcall] at hr
      simp only [responseOf] at hr
      subst hr
      refine ⟨⟨true, true, true, false, 0, [], some (configTheme cfg),
        if o.quiet then [] else
          ["Cloudstack error: HTTP response " ++ toString st ++ "\n"]⟩,
        ?_, rfl, rfl⟩
      simp only [main, hp, hc, hcall, afterResponse_nojid _ _ _ _ _ _ hj,
        finishOutput]
      rfl

/-- Witness for C1 at a run whose response has no `jobid` key. -/
theorem main_poll_trigger_witness :
    ∃ tr : Trace,
      main (setCall sampleWorld (.success (.obj [("count", .num 0)])))
        sampleOpts 5 =
        some (.output
          (format_json (setCall sampleWorld (.success (.obj [("count", .num 0)])))
            (.obj [("count", .num 0)])
            (configTheme [("endpoint", "http://localhost:8080/client/api"),
                          ("key", "k"), ("secret", "s"),
                          ("theme", "monokai")]) ++ "\n") 0, tr) ∧
      tr.enteredPoll = false ∧ tr.pollQueries = 0 :=
  main_poll_trigger.2 _ sampleOpts 5 [("name", "vm1")] _ _ rfl rfl rfl rfl

theorem afterResponse_finished (w : World) (o : Options) (th : String)
    (r : JVal) (e : List String) (fuel : Nat) (pr : PollResult)
    (hA : strIn "Async" o.command = false)
    (hj : pyIn "jobid" r = some true)
    (ha : o.async = false)
    (hl : pollLoop w.poll fuel 0 r true 0 [] = some (.finished pr)) :
    afterResponse w o th r e fuel =
      finishOutput w th pr.response pr.ok
        ((e ++ (if o.quiet then [] else ["Polling result... ^C to abort\n"])) ++
          (if pr.interrupted && !o.quiet then ["Result not ready yet.\n"]
           else []))
        true pr.queries pr.sleeps := by
  unfold afterResponse
  simp [hA, hj, ha, hl]

/-- C3: a run exits with status 0 only through the normal output path with
the success classification; and when the polled terminal payload carries a
nonzero `jobresultcode`, the formatted payload is still written to stdout
while the exit status is 1. -/
theorem main_exit_classification :
    (∀ (w : World) (o : Options) (fuel : Nat) (out : Outcome) (tr : Trace),
      main w o fuel = some (out, tr) → out.exitCode = 0 →
      ∃ s, out = .output s 0) ∧
    (∀ (w : World) (o : Options) (fuel : Nat)
      (args cfg : List (String × String)) (p rc : JVal) (pr : PollResult),
      parseAll o.rawArgs = some args →
      w.readConfig o.region = some cfg →
      w.call = .success p →
      strIn "Async" o.command = false →
      pyIn "jobid" p = some true →
      o.async = false →
      pollLoop w.poll fuel 0 p true 0 [] = some (.finished pr) →
      pr.interrupted = false →
      pr.response.get "jobresultcode" = some rc →
      pyIsZero rc = false →
      ∃ tr : Trace, main w o fuel =
        some (.output (format_json w pr.response (configTheme cfg) ++ "\n") 1,
              tr)) := by
  constructor
  · intro w o fuel out tr _ hz
    cases out with
    | argError => simp [Outcome.exitCode] at hz
    | configError reg => simp [Outcome.exitCode] at hz
    | errorExit body => simp [Outcome.exitCode] at hz
    | crash => simp [Outcome.exitCode] at hz
    | output s c =>
      simp only [Outcome.exitCode] at hz
      exact ⟨s, by rw [hz]⟩
  · intro w o fuel args cfg p rc pr hp hc hcall hA hj ha hl hni hrc hz
    obtain ⟨rc', hrc', hok⟩ :=
      pollLoop_terminal_ok w.poll fuel 0 p true 0 [] pr hl hni
    have hrceq : rc' = rc := by
      have := hrc'.symm.trans hrc
      simpa using this
    have hokf : pr.ok = false := by
      rw [hok, hrceq, hz, Bool.and_false]
    refine ⟨⟨true, true, true, true, pr.queries, pr.sleeps,
      some (configTheme cfg),
      (([] ++ (if o.quiet then [] else ["Polling result... ^C to abort\n"])) ++
        (if pr.interrupted && !o.quiet then ["Result not ready yet.\n"]
         else []))⟩, ?_⟩
    simp only [main, hp, hc, hcall]
    rw [afterResponse_finished w o _ p [] fuel pr hA hj ha hl]
    simp [finishOutput, hokf]

/-- Witness for C3: the polled job fails with `jobresultcode = 530`; the
payload is printed and the exit status is 1. -/
theorem main_exit_classification_witness :
    ∃ tr : Trace, main failWorld sampleOpts 5 =
      some (.output (format_json failWorld terminalFail
        (configTheme [("endpoint", "http://localhost:8080/client/api"),
                      ("key", "k"), ("secret", "s"),
                      ("theme", "monokai")]) ++ "\n") 1, tr) :=
  main_exit_classification.2 failWorld sampleOpts 5 [("name", "vm1")] _
    pendingPayload (.num 530) ⟨terminalFail, false, false, 1, []⟩
    rfl rfl rfl rfl rfl rfl rfl rfl rfl rfl

/-- C5 counterexample: an interrupt delivered while the first job-status
query is in flight — not during the pause between polls — is still
recognized, because the `try` block wrapping the loop body covers the
network call as well: the loop aborts at once, with zero completed
queries (the in-flight call's result is lost) and no sleep begun. -/
theorem pollLoop_interrupt_in_flight :
    pollIntrQuery.interrupt 0 = some .duringQuery ∧
    pollLoop pollIntrQuery 5 0 pendingPayload true 0 [] =
      some (.finished ⟨pendingPayload, true, true, 0, []⟩) :=
  ⟨rfl, rfl⟩

/-- C5 (amended): an external interrupt is recognized during the pause
between polls or during the in-flight job-status query; in either case it
aborts the loop immediately with `response` and `ok` unchanged, the last
known still-pending payload is the printed result, and the process exits
through the default success path (exit 0). -/
theorem main_interrupt_default_success :
    (∀ (w : PollWorld) (fuel i : Nat) (r : JVal) (ok : Bool) (q : Nat)
      (slp : List Nat) (pr : PollResult),
      pollLoop w fuel i r ok q slp = some (.finished pr) →
      pr.interrupted = true → pr.response = r ∧ pr.ok = ok) ∧
    (∀ (w : World) (o : Options) (fuel : Nat)
      (args cfg : List (String × String)) (p : JVal) (pr : PollResult),
      parseAll o.rawArgs = some args →
      w.readConfig o.region = some cfg →
      w.call = .success p →
      strIn "Async" o.command = false →
      pyIn "jobid" p = some true →
      o.async = false →
      pollLoop w.poll fuel 0 p true 0 [] = some (.finished pr) →
      pr.interrupted = true →
      ∃ tr : Trace, main w o fuel =
          some (.output (format_json w p (configTheme cfg) ++ "\n") 0, tr) ∧
        tr.enteredPoll = true) := by
  refine ⟨pollLoop_interrupted_state, ?_⟩
  intro w o fuel args cfg p pr hp hc hcall hA hj ha hl hint
  obtain ⟨hresp, hok⟩ :=
    pollLoop_interrupted_state w.poll fuel 0 p true 0 [] pr hl hint
  refine ⟨⟨true, true, true, true, pr.queries, pr.sleeps,
    some (configTheme cfg),
    (([] ++ (if o.quiet then [] else ["Polling result... ^C to abort\n"])) ++
      (if pr.interrupted && !o.quiet then ["Result not ready yet.\n"]
       else []))⟩, ?_, rfl⟩
  simp only [main, hp, hc, hcall]
  rw [afterResponse_finished w o _ p [] fuel pr hA hj ha hl]
  simp [finishOutput, hok, hresp]

/-- Witness for the amended C5: an interrupt during the first sleep ends
the run with the pending payload printed and exit status 0. -/
theorem main_interrupt_default_success_witness :
    ∃ tr : Trace, main intrWorld sampleOpts 5 =
        some (.output (format_json intrWorld pendingPayload
          (configTheme [("endpoint", "http://localhost:8080/client/api"),
                        ("key", "k"), ("secret", "s"),
                        ("theme", "monokai")]) ++ "\n") 0, tr) ∧
      tr.enteredPoll = true :=
  main_interrupt_default_success.2 intrWorld sampleOpts 5 [("name", "vm1")] _
    pendingPayload ⟨pendingPayload, true, true, 1, []⟩
    rfl rfl rfl rfl rfl rfl rfl rfl

theorem afterResponse_setCall (w : World) (c : CallResult) (o : Options)
    (th : String) (r : JVal) (e : List String) (fuel : Nat) :
    afterResponse (setCall w c) o th r e fuel =
      afterResponse w o th r e fuel := rfl

theorem afterResponse_stderr_prefix (w : World) (o : Options) (th : String)
    (r : JVal) (e : List String) (fuel : Nat) :
    afterResponse w o th r e fuel =
      (afterResponse w o th r [] fuel).map (prependStderr e) := by
  unfold afterResponse
  by_cases hA : strIn "Async" o.command
  · simp [hA, finishOutput, prependStderr]
  · simp only [hA, Bool.false_eq_true, if_false]
    cases hj : pyIn "jobid" r with
    | none => simp [prependStderr]
    | some b =>
      cases hb : b && !o.async with
      | false => simp [hb, finishOutput, prependStderr]
      | true =>
        simp only [hb, if_true]
        cases hpl : pollLoop w.poll fuel 0 r true 0 [] with
        | none => simp
        | some po =>
          cases po with
          | keyError q slp => simp [prependStderr]
          | finished pres => simp [finishOutput, prependStderr]

/-- C4: an API error whose body is not JSON-decodable stops the run with
exit 1, the raw body on stderr, and no polling or stdout output; an API
error with a decodable JSON body threads the decoded data through exactly
the path a success payload would take — the run's outcome is that of the
corresponding success run, with only the error status line prepended to
stderr. -/
theorem main_error_asymmetry :
    (∀ (w : World) (o : Options) (fuel : Nat) (st : Nat) (text : String)
      (d : JVal) (args cfg : List (String × String)),
      parseAll o.rawArgs = some args →
      w.readConfig o.region = some cfg →
      main (setCall w (.failure st text (some d))) o fuel =
        (main (setCall w (.success d)) o fuel).map
          (prependStderr (errLine st o.quiet))) ∧
    (∀ (w : World) (o : Options) (fuel : Nat) (st : Nat) (text : String)
      (args cfg : List (String × String)),
      parseAll o.rawArgs = some args →
      w.readConfig o.region = some cfg →
      w.call = .failure st text none →
      main w o fuel =
        some (.errorExit text,
              ⟨true, true, true, false, 0, [], none,
               errLine st o.quiet ++ [text, "\n"]⟩)) := by
  constructor
  · intro w o fuel st text d args cfg hp hc
    simp only [main, setCall, hp, hc]
    have e1 : afterResponse
        ⟨w.readConfig, .failure st text (some d), w.poll,
         w.pygmentsAvailable, w.isatty, w.highlight⟩ o (configTheme cfg) d
        (if o.quiet = true then []
         else ["Cloudstack error: HTTP response " ++ toString st ++ "\n"])
        fuel =
        afterResponse w o (configTheme cfg) d (errLine st o.quiet) fuel := rfl
    have e2 : afterResponse
        ⟨w.readConfig, .success d, w.poll,
         w.pygmentsAvailable, w.isatty, w.highlight⟩ o (configTheme cfg) d []
        fuel =
        afterResponse w o (configTheme cfg) d [] fuel := rfl
    rw [e1, e2, afterResponse_stderr_prefix w o _ d _ fuel]
  · intro w o fuel st text args cfg hp hc hcall
    simp only [main, hp, hc, hcall]
    simp [errLine]

/-- Witness for C4: a 431 error with a decodable JSON body yields exactly
the success run's outcome with the status line prepended to stderr. -/
theorem main_error_asymmetry_witness :
    main (setCall sampleWorld (.failure 431 "body" (some pendingPayload)))
        sampleOpts 5 =
      (main (setCall sampleWorld (.success pendingPayload)) sampleOpts 5).map
        (prependStderr (errLine 431 false)) :=
  main_error_asymmetry.1 sampleWorld sampleOpts 5 431 "body" pendingPayload
    [("name", "vm1")] _ rfl rfl

theorem afterResponse_themeUsed (w : World) (o : Options) (th : String)
    (r : JVal) (e : List String) (fuel : Nat) (out : Outcome) (tr : Trace)
    (h : afterResponse w o th r e fuel = some (out, tr)) :
    tr.themeUsed = none ∨ tr.themeUsed = some th := by
  unfold afterResponse at h
  by_cases hA : strIn "Async" o.command
  · rw [if_pos hA] at h
    simp only [finishOutput, Option.some.injEq, Prod.mk.injEq] at h
    exact Or.inr (by rw [← h.2])
  · rw [if_neg hA] at h
    cases hj : pyIn "jobid" r with
    | none =>
      simp only [hj, Option.some.injEq, Prod.mk.injEq] at h
      exact Or.inl (by rw [← h.2])
    | some b =>
      simp only [hj] at h
      cases hb : b && !o.async with
      | false =>
        simp only [hb, Bool.false_eq_true, if_false, finishOutput,
          Option.some.injEq, Prod.mk.injEq] at h
        exact Or.inr (by rw [← h.2])
      | true =>
        simp only [hb, if_true] at h
        cases hpl : pollLoop w.poll fuel 0 r true 0 [] with
        | none => simp only [hpl] at h; exact Option.noConfusion h
        | some po =>
          cases po with
          | keyError q slp =>
            simp only [hpl, Option.some.injEq, Prod.mk.injEq] at h
            exact Or.inl (by rw [← h.2])
          | finished pres =>
            simp only [hpl, finishOutput, Option.some.injEq,
              Prod.mk.injEq] at h
            exact Or.inr (by rw [← h.2])

/-- C10: the `--theme` flag never influences a run of `main` — two runs
differing only in the flag's value are identical — and any theme that
reaches `_format_json` is the configuration file's `theme` entry,
defaulting to `"default"` when absent. -/
theorem main_theme_flag_irrelevant :
    (∀ (w : World) (o : Options) (fuel : Nat) (t₁ t₂ : String),
      main w (setTheme o t₁) fuel = main w (setTheme o t₂) fuel) ∧
    (∀ (w : World) (o : Options) (fuel : Nat) (out : Outcome) (tr : Trace),
      main w o fuel = some (out, tr) →
      tr.themeUsed = none ∨
        ∃ cfg, w.readConfig o.region = some cfg ∧
          tr.themeUsed = some (configTheme cfg)) := by
  constructor
  · intro w o fuel t₁ t₂
    cases o
    rfl
  · intro w o fuel out tr hm
    cases hp : parseAll o.rawArgs with
    | none =>
      simp only [main, hp, Option.some.injEq, Prod.mk.injEq] at hm
      exact Or.inl (by rw [← hm.2])
    | some args =>
      cases hc : w.readConfig o.region with
      | none =>
        simp only [main, hp, hc, Option.some.injEq, Prod.mk.injEq] at hm
        exact Or.inl (by rw [← hm.2])
      | some cfg =>
        cases hcall : w.call with
        | success p =>
          simp only [main, hp, hc, hcall] at hm
          rcases afterResponse_themeUsed _ _ _ _ _ _ _ _ hm with h | h
          · exact Or.inl h
          · exact Or.inr ⟨cfg, rfl, h⟩
        | failure st text d =>
          cases d with
          | none =>
            simp only [main, hp, hc, hcall, Option.some.injEq,
              Prod.mk.injEq] at hm
            exact Or.inl (by rw [← hm.2])
          | some p =>
            simp only [main, hp, hc, hcall] at hm
            rcases afterResponse_themeUsed _ _ _ _ _ _ _ _ hm with h | h
            · exact Or.inl h
            · exact Or.inr ⟨cfg, rfl, h⟩

/-- Witness for C10 at two runs differing only in `--theme`, and a run
whose region is missing (no theme reaches the formatter). -/
theorem main_theme_flag_irrelevant_witness :
    main sampleWorld (setTheme sampleOpts "vim") 5 =
      main sampleWorld (setTheme sampleOpts "emacs") 5 ∧
    ((⟨false, false, false, false, 0, [], none, []⟩ : Trace).themeUsed =
        none ∨
      ∃ cfg, sampleWorld.readConfig "exoscale" = some cfg ∧
        (⟨false, false, false, false, 0, [], none, []⟩ : Trace).themeUsed =
          some (configTheme cfg)) :=
  ⟨main_theme_flag_irrelevant.1 sampleWorld sampleOpts 5 "vim" "emacs",
   main_theme_flag_irrelevant.2 sampleWorld
     ⟨"exoscale", "default", false, false, false,
      "listVirtualMachines", []⟩ 5
     (.configError "exoscale") ⟨false, false, false, false, 0, [], none, []⟩
     rfl⟩

theorem dumpsFields_eq_map (lvl : Nat) (fs : List (String × JVal)) :
    dumpsFields lvl fs = fs.map (fun kv => (kv.1, dumpsVal lvl kv.2)) := by
  induction fs with
  | nil => simp [dumpsFields]
  | cons kv rest ih => simp [dumpsFields, ih]

theorem sortFields_eq_of_perm (l₁ l₂ : List (String × String))
    (hp : l₁.Perm l₂) (hn : (l₁.map Prod.fst).Nodup) :
    sortFields l₁ = sortFields l₂ := by
  haveI ht : IsTotal (String × String) (fun a b => a.1 ≤ b.1) :=
    ⟨fun a b => le_total a.1 b.1⟩
  haveI htr : IsTrans (String × String) (fun a b => a.1 ≤ b.1) :=
    ⟨fun a b c h1 h2 => le_trans h1 h2⟩
  have hperm : (sortFields l₁).Perm (sortFields l₂) :=
    (List.perm_insertionSort _ l₁).trans
      (hp.trans (List.perm_insertionSort _ l₂).symm)
  have hn₁ : ((sortFields l₁).map Prod.fst).Nodup :=
    (((List.perm_insertionSort _ l₁).map Prod.fst).nodup_iff).mpr hn
  have hn₂ : ((sortFields l₂).map Prod.fst).Nodup :=
    (((List.perm_insertionSort _ l₂).map Prod.fst).nodup_iff).mpr
      (((hp.map Prod.fst).nodup_iff).mp hn)
  have hlt : ∀ l : List (String × String),
      l.Sorted (fun a b => a.1 ≤ b.1) → (l.map Prod.fst).Nodup →
      l.Sorted (fun a b : String × String => a.1 < b.1) := by
    intro l hs hnd
    have hne : l.Pairwise (fun a b : String × String => a.1 ≠ b.1) :=
      (List.pairwise_map).mp hnd
    exact (hs.and hne).imp (fun h => lt_of_le_of_ne h.1 h.2)
  haveI : IsAntisymm (String × String)
      (fun a b : String × String => a.1 < b.1) :=
    ⟨fun a b h1 h2 => absurd h2 (lt_asymm h1)⟩
  exact List.eq_of_perm_of_sorted hperm
    (hlt _ (List.sorted_insertionSort _ l₁) hn₁)
    (hlt _ (List.sorted_insertionSort _ l₂) hn₂)

theorem dumpsVal_obj_perm (lvl : Nat) (f₁ f₂ : List (String × JVal))
    (hp : f₁.Perm f₂) (hn : (f₁.map Prod.fst).Nodup) :
    dumpsVal lvl (.obj f₁) = dumpsVal lvl (.obj f₂) := by
  have key : sortFields (dumpsFields (lvl + 2) f₁) =
      sortFields (dumpsFields (lvl + 2) f₂) := by
    rw [dumpsFields_eq_map, dumpsFields_eq_map]
    apply sortFields_eq_of_perm _ _ (hp.map _)
    simpa [List.map_map, Function.comp] using hn
  cases f₁ with
  | nil =>
    rw [List.Perm.eq_nil hp.symm]
  | cons a as =>
    cases f₂ with
    | nil => exact absurd (List.Perm.eq_nil hp) (by simp)
    | cons b bs =>
      simp only [dumpsVal]
      rw [key]

/-- C9: the plain (non-highlighted) JSON formatter output is the payload
serialized with 2-space indentation and keys in sorted order: the object
with keys `b` and `a` renders key `a` before key `b` under two-space
indentation, and rendering an object does not depend on the order its
distinct-keyed entries arrive in. -/
theorem format_json_sorted_output :
    (∀ (w : World) (theme : String),
      (w.pygmentsAvailable && w.isatty) = false →
      format_json w (.obj [("b", .num 1), ("a", .num 2)]) theme =
        "\x7b\n  \"a\": 2,\n  \"b\": 1\n\x7d") ∧
    (∀ (lvl : Nat) (f₁ f₂ : List (String × JVal)),
      f₁.Perm f₂ → (f₁.map Prod.fst).Nodup →
      dumpsVal lvl (.obj f₁) = dumpsVal lvl (.obj f₂)) := by
  constructor
  · intro w theme h
    unfold format_json
    simp only [h, Bool.false_eq_true, if_false]
    simp [dumps, dumpsVal, dumpsFields, sortFields, List.insertionSort,
      List.orderedInsert, joinItems, jIndent, encodeStr, encChar]
    rfl
  · exact dumpsVal_obj_perm

/-- Witness for C9 at the spec's example payload, with the two field
orders swapped. -/
theorem format_json_sorted_output_witness :
    format_json sampleWorld (.obj [("b", .num 1), ("a", .num 2)]) "default" =
      "\x7b\n  \"a\": 2,\n  \"b\": 1\n\x7d" ∧
    dumpsVal 0 (.obj [("b", .num 1), ("a", .num 2)]) =
      dumpsVal 0 (.obj [("a", .num 2), ("b", .num 1)]) :=
  ⟨format_json_sorted_output.1 sampleWorld "default" rfl,
   format_json_sorted_output.2 0 _ _ (List.Perm.swap _ _ _) (by decide)⟩

end Cs
